import Mathlib

/-!
Backend relay (`my_app_project/backend/index.js`).

A shallow embedding of the Express service in `index.js`: the lazy Firebase
initialisation, the five request handlers and the language-code helper, followed
by theorems about them.

Modelling conventions.

* JavaScript values that travel through JSON are `JsVal`. Numbers are integers
  (`num`) or a non-finite value (`nan`); arithmetic is exact, so the statements
  about pagination hold for counts in the range where IEEE doubles are exact.
* A JavaScript object is an association list; a property read takes the first
  binding of a key, and the keys of a parsed JSON object are pairwise distinct.
* A thrown exception is `Except.error` carrying `error.message`.
* External collaborators (file system, `require`, `JSON.parse`, the Firebase
  admin SDK, Firestore, the Rasa webhook, the Google speech clients) are the
  fields of `Runtime`; each handler returns, next to its response, the list of
  external calls it made (`Call`).
* `console.log` is not modelled; `console.error` is recorded only in
  `initializeFirebase`. String conversion is the default one of plain JSON data
  (an object converts to `[object Object]`).
-/

/-! ## JavaScript values -/

/-- JavaScript values as they arise from JSON bodies and are put into JSON responses. -/
inductive JsVal where
  | undefined
  | null
  | bool (b : Bool)
  | num (n : Int)
  | nan
  | str (s : String)
  | arr (xs : List JsVal)
  | obj (fields : List (String × JsVal))

/-- An object as an association list of own enumerable properties. -/
abbrev JsObj := List (String × JsVal)

namespace JsVal

/-- ECMAScript `ToBoolean`: `undefined`, `null`, `false`, `0`, `NaN` and `""` are falsy. -/
def truthy : JsVal → Bool
  | .undefined => false
  | .null => false
  | .bool b => b
  | .num n => n != 0
  | .nan => false
  | .str s => s != ""
  | .arr _ => true
  | .obj _ => true

mutual
/-- ECMAScript `ToString` on JSON data; an array converts as `join(",")`. -/
def toStr : JsVal → String
  | .undefined => "undefined"
  | .null => "null"
  | .bool true => "true"
  | .bool false => "false"
  | .num n => toString n
  | .nan => "NaN"
  | .str s => s
  | .arr xs => joinElems "," xs
  | .obj _ => "[object Object]"
termination_by structural v => v
/-- The method `Array.prototype.join(sep)`: `undefined` and `null` elements contribute the empty
string, every other element its string conversion. -/
def joinElems (sep : String) : List JsVal → String
  | [] => ""
  | x :: rest =>
    (match x with
      | .undefined => ""
      | .null => ""
      | v => toStr v)
    ++ (match rest with
      | [] => ""
      | _ :: _ => sep)
    ++ joinElems sep rest
termination_by structural xs => xs
end

/-- Property read `v[key]` for the property names this program uses (none of them is an array
index, `length` or a prototype member): reading from `undefined` or `null` throws a `TypeError`,
an object yields its binding or `undefined`, any other value yields `undefined`. -/
def getProp (v : JsVal) (key : String) : Except String JsVal :=
  match v with
  | .undefined => .error ("Cannot read properties of undefined (reading " ++ key ++ ")")
  | .null => .error ("Cannot read properties of null (reading " ++ key ++ ")")
  | .obj fields => .ok ((fields.lookup key).getD .undefined)
  | _ => .ok .undefined

end JsVal

/-- Property read on an object known to be one (destructuring of `req.body`). -/
def getField (o : JsObj) (key : String) : JsVal :=
  (o.lookup key).getD .undefined

/-- Property write `o[key] = v` on an object literal under construction: an existing key keeps
its position and takes the new value, a new key is appended. -/
def setProp : JsObj → String → JsVal → JsObj
  | [], key, v => [(key, v)]
  | (k, w) :: rest, key, v => if k = key then (k, v) :: rest else (k, w) :: setProp rest key v

/-- Object spread `...source` into the literal `target`: every own property of `source` is
written in order. -/
def spreadInto (target source : JsObj) : JsObj :=
  source.foldl (fun o kv => setProp o kv.1 kv.2) target

/-- The own property names of an object. -/
def keysOf (o : JsObj) : List String :=
  o.map Prod.fst

/-! ## The email regular expression -/

/-- Characters matched by the class escape `\s` of ECMAScript regular expressions (white space
and line terminators). -/
def isJsWhitespace (c : Char) : Bool :=
  let n := c.toNat
  n == 0x9 || n == 0xA || n == 0xB || n == 0xC || n == 0xD || n == 0x20 || n == 0xA0 ||
  n == 0x1680 || (0x2000 ≤ n && n ≤ 0x200A) || n == 0x2028 || n == 0x2029 || n == 0x202F ||
  n == 0x205F || n == 0x3000 || n == 0xFEFF

/-- One element of an anchored pattern: a single character of a class, or a class under `+`. -/
inductive RegexItem where
  | one (cls : Char → Bool)
  | plus (cls : Char → Bool)

/-- Whether the whole input (the pattern is anchored by `^` and `$`) matches the sequence of
items; `+` may stop after any non-zero number of characters, as backtracking allows. -/
def regexMatch : List Char → List RegexItem → Bool
  | [], [] => true
  | [], _ :: _ => false
  | _ :: _, [] => false
  | c :: s, .one cls :: rest => cls c && regexMatch s rest
  | c :: s, .plus cls :: rest => cls c && (regexMatch s (.plus cls :: rest) || regexMatch s rest)

/-- The class `[^\s@]`. -/
def notSpaceAt (c : Char) : Bool :=
  !(isJsWhitespace c || c == '@')

/-- The pattern `/^[^\s@]+@[^\s@]+\.[^\s@]+$/`. -/
def emailRegex : List RegexItem :=
  [.plus notSpaceAt, .one (fun c => c == '@'), .plus notSpaceAt, .one (fun c => c == '.'),
   .plus notSpaceAt]

/-- The call `emailRegex.test(email)`: the argument is converted to a string first. -/
def emailRegexTest (email : JsVal) : Bool :=
  regexMatch email.toStr.toList emailRegex

/-- The method `String.prototype.toLowerCase` on the ASCII letters; the switch labels of
`getLanguageCode` are ASCII and no other character lower-cases to one of their letters. -/
def toLowerCase (s : String) : String :=
  String.mk (s.toList.map Char.toLower)

/-- Helper function to get the language code for the Google Cloud services. -/
def getLanguageCode (language : String) : String :=
  match toLowerCase language with
  | "tamil" => "ta-IN"
  | "ta" => "ta-IN"
  | "hindi" => "hi-IN"
  | "hi" => "hi-IN"
  | "tanglish" => "en-US"
  | "en" => "en-US"
  | _ => "en-US"

/-- The call `getLanguageCode(language)` on a request value: `language.toLowerCase()` throws a
`TypeError` unless `language` is a string. -/
def callGetLanguageCode (language : JsVal) : Except String String :=
  match language with
  | .str s => .ok (getLanguageCode s)
  | .null => .error "Cannot read properties of null (reading toLowerCase)"
  | _ => .error "language.toLowerCase is not a function"

/-! ## `parseInt` -/

/-- The value of a digit character in the given radix, if it is one. -/
def digitValue (radix : Nat) (c : Char) : Option Nat :=
  let n := c.toNat
  let v :=
    if 48 ≤ n ∧ n ≤ 57 then some (n - 48)
    else if 97 ≤ n ∧ n ≤ 122 then some (n - 87)
    else if 65 ≤ n ∧ n ≤ 90 then some (n - 55)
    else none
  match v with
  | some d => if d < radix then some d else none
  | none => none

/-- The longest run of radix digits at the front of the input, as the number read so far and
whether any digit was read. -/
def readDigits (radix : Nat) : List Char → Nat → Bool → Nat × Bool
  | [], acc, seen => (acc, seen)
  | c :: s, acc, seen =>
    match digitValue radix c with
    | some d => readDigits radix s (acc * radix + d) true
    | none => (acc, seen)

/-- ECMAScript `parseInt(string)` without a radix argument: leading white space is skipped, a
sign is read, a `0x` or `0X` marker selects radix 16, and the longest run of digits is
converted; `none` stands for `NaN`. -/
def parseInt (s : String) : Option Int :=
  let s1 := s.toList.dropWhile isJsWhitespace
  let signed : Bool × List Char :=
    match s1 with
    | '-' :: r => (true, r)
    | '+' :: r => (false, r)
    | _ => (false, s1)
  let based : Nat × List Char :=
    match signed.2 with
    | '0' :: 'x' :: r => (16, r)
    | '0' :: 'X' :: r => (16, r)
    | _ => (10, signed.2)
  match readDigits based.1 based.2 0 false with
  | (n, true) => some (if signed.1 then -(n : Int) else (n : Int))
  | (_, false) => none

/-- The call `parseInt(req.query.name)`: an absent parameter is `undefined`, which is converted
to the string `"undefined"`. -/
def parseIntArg (q : Option String) : Option Int :=
  match q with
  | some s => parseInt s
  | none => parseInt "undefined"

/-- The expression `x || d` on a `parseInt` result: `NaN` and `0` are falsy. -/
def orDefault (x : Option Int) (d : Int) : Int :=
  match x with
  | some n => if n = 0 then d else n
  | none => d

/-- The expression `Math.ceil(a / b)` on integers; a zero divisor gives a non-finite number. -/
def mathCeilDiv (a b : Int) : JsVal :=
  if b = 0 then .nan else .num ⌈(a : ℚ) / (b : ℚ)⌉

/-! ## Process state, configuration and external collaborators -/

/-- The environment variables the service reads. -/
structure Env where
  serviceAccountFile : Option String
  serviceAccount : Option String
  rasaUrl : Option String

/-- An environment variable in a condition: unset and the empty string are falsy. -/
def envValue (v : Option String) : Option String :=
  match v with
  | some s => if s = "" then none else some s
  | none => none

/-- The module-level `firebaseInitialized` flag; `db` is assigned exactly when the flag is set. -/
structure AppState where
  firebaseInitialized : Bool

/-- The external collaborators, whose behaviour the source does not define. -/
structure Runtime where
  /-- The call `path.join(__dirname, file)`. -/
  pathJoin : String → String
  /-- The call `fs.existsSync(path)` on a configuration path. -/
  existsSync : String → Bool
  /-- The call `require(path)`: the loaded module value, or an exception. -/
  requireModule : String → Except String JsVal
  /-- The call `JSON.parse(text)`. -/
  jsonParse : String → Except String JsVal
  /-- The calls `admin.initializeApp`, `admin.credential.cert` and `admin.firestore()`. -/
  adminInit : JsVal → Except String Unit
  /-- The sentinel `admin.firestore.FieldValue.serverTimestamp()`. -/
  serverTimestamp : JsVal
  /-- The call `db.collection(form_submissions).add(doc)`: the new document id. -/
  storeAdd : JsObj → Except String String
  /-- The count query: `snapshotCount.data().count`. -/
  storeCount : Except String Int
  /-- The windowed query at an offset and limit: the documents as id and data. -/
  storeQuery : Int → Int → Except String (List (String × JsObj))
  /-- The webhook call `axios.post` with sender and message: `rasaResponse.data`. -/
  rasaPost : JsVal → JsVal → Except String JsVal
  /-- Whether `speechClient` was constructed at start-up. -/
  speechClient : Bool
  /-- Whether `ttsClient` was constructed at start-up. -/
  ttsClient : Bool
  /-- The call `fs.readFileSync(path).toString(base64)` on an existing file. -/
  readFile : String → Except String String
  /-- The call `speechClient.recognize` with content and language code: for each result, the
  transcripts of its alternatives. -/
  recognize : String → String → Except String (List (List String))
  /-- The call `ttsClient.synthesizeSpeech` with text and language code, followed by
  `response.audioContent.toString(base64)`. -/
  synthesize : String → String → Except String String

/-- An external call made while serving a request. -/
inductive Call where
  | existsSync (path : String)
  | requireModule (path : String)
  | jsonParse (text : String)
  | adminInit (serviceAccount : JsVal)
  | consoleError (message : String)
  | storeAdd (doc : JsObj)
  | storeCount
  | storeQuery (offset limit : Int)
  | rasaPost (sender message : JsVal)
  | recognize (content languageCode : String)
  | synthesize (text languageCode : String)
  | unlink (path : String) (existed : Bool)

/-- Whether a call writes a document to the store. -/
def Call.isStoreWrite : Call → Bool
  | .storeAdd _ => true
  | _ => false

/-- An HTTP response: status code and JSON body. -/
structure Response where
  status : Nat
  body : JsVal

/-- The failure envelope, `success: false` with an error message. -/
def errorResponse (status : Nat) (message : String) : Response :=
  ⟨status, .obj [("success", .bool false), ("error", .str message)]⟩

/-- A field of a response body (`undefined` when the body is not an object or lacks it). -/
def Response.field (r : Response) (key : String) : JsVal :=
  match r.body with
  | .obj fields => getField fields key
  | _ => .undefined

/-- Whether the response is a JSON object with a boolean `success` that, when `success` is
false, also carries a string `error`. -/
def Response.hasEnvelope (r : Response) : Bool :=
  match r.body with
  | .obj fields =>
    match fields.lookup "success" with
    | some (.bool true) => true
    | some (.bool false) =>
      match fields.lookup "error" with
      | some (.str _) => true
      | _ => false
    | _ => false
  | _ => false

/-! ## Firebase initialisation -/

/-- The required service account fields, in the order they are checked. -/
def requiredFields : List String :=
  ["type", "project_id", "private_key_id", "private_key", "client_email", "client_id"]

/-- The credential loading step of `initializeFirebase`: the file named by
`FIREBASE_SERVICE_ACCOUNT_FILE` if that variable is set, otherwise the JSON text in
`FIREBASE_SERVICE_ACCOUNT`, otherwise an error. -/
def loadServiceAccount (rt : Runtime) (env : Env) : Except String JsVal × List Call :=
  match envValue env.serviceAccountFile with
  | some file =>
    let p := rt.pathJoin file
    if rt.existsSync p then (rt.requireModule p, [.existsSync p, .requireModule p])
    else (.error ("Service account file not found at: " ++ p), [.existsSync p])
  | none =>
    match envValue env.serviceAccount with
    | some text =>
      match rt.jsonParse text with
      | .ok v => (.ok v, [.jsonParse text])
      | .error m =>
        (.error ("Failed to parse FIREBASE_SERVICE_ACCOUNT JSON: " ++ m), [.jsonParse text])
    | none =>
      (.error ("Firebase service account not provided. " ++
        "Set FIREBASE_SERVICE_ACCOUNT_FILE or FIREBASE_SERVICE_ACCOUNT"), [])

/-- The loop over `requiredFields`: the first field whose value is missing or falsy is
reported. -/
def checkRequiredFields (serviceAccount : JsVal) : List String → Except String Unit
  | [] => .ok ()
  | field :: rest =>
    match serviceAccount.getProp field with
    | .error m => .error m
    | .ok v =>
      if v.truthy then checkRequiredFields serviceAccount rest
      else .error ("Service account missing required field: " ++ field)

/-- Whether the service account carries a truthy (present and non-empty) value under the
field. -/
def fieldPresent (serviceAccount : JsVal) (field : String) : Bool :=
  match serviceAccount.getProp field with
  | .ok v => v.truthy
  | .error _ => false

/-- The body of the `try` block of `initializeFirebase`. -/
def tryInitialize (rt : Runtime) (env : Env) : Except String Unit × List Call :=
  let loaded := loadServiceAccount rt env
  match loaded.1 with
  | .error m => (.error m, loaded.2)
  | .ok serviceAccount =>
    match checkRequiredFields serviceAccount requiredFields with
    | .error m => (.error m, loaded.2)
    | .ok () => (rt.adminInit serviceAccount, loaded.2 ++ [.adminInit serviceAccount])

/-- What `initializeFirebase` returns, the state it leaves and the calls it made. -/
structure InitResult where
  ok : Bool
  state : AppState
  calls : List Call

/-- The function `initializeFirebase`. -/
def initializeFirebase (rt : Runtime) (env : Env) (st : AppState) : InitResult :=
  if st.firebaseInitialized then ⟨true, st, []⟩
  else
    let tried := tryInitialize rt env
    match tried.1 with
    | .ok () => ⟨true, ⟨true⟩, tried.2⟩
    | .error m => ⟨false, ⟨false⟩, tried.2 ++ [.consoleError m]⟩

/-- The prelude of the two store handlers: `if (!firebaseInitialized) initialized = await
initializeFirebase()`; `ok` is false when the handler must answer 500. -/
def ensureFirebase (rt : Runtime) (env : Env) (st : AppState) : InitResult :=
  if st.firebaseInitialized then ⟨true, st, []⟩ else initializeFirebase rt env st

/-- What a store handler returns: the response, the state it leaves and the calls it made. -/
structure HandlerResult where
  response : Response
  state : AppState
  calls : List Call

/-! ## `POST /submit-form` -/

/-- The parts of the request the form handler reads. -/
structure FormRequest where
  /-- The parsed JSON body. -/
  body : JsObj
  /-- The expression `req.ip`. -/
  ip : JsVal
  /-- The expression `req.get(User-Agent)`. -/
  userAgent : JsVal

/-- The object literal `formData`: the body spread, then the three server fields. -/
def formData (rt : Runtime) (req : FormRequest) : JsObj :=
  setProp (setProp (setProp (spreadInto [] req.body) "submittedAt" rt.serverTimestamp)
    "ipAddress" req.ip) "userAgent" req.userAgent

/-- The `try` block of the form handler, with its `catch`. -/
def submitFormBody (rt : Runtime) (req : FormRequest) : Response × List Call :=
  let username := getField req.body "username"
  let email := getField req.body "email"
  let password := getField req.body "password"
  if !username.truthy || !email.truthy || !password.truthy then
    (errorResponse 400 "Missing required fields: username, email, password", [])
  else if !emailRegexTest email then
    (errorResponse 400 "Invalid email format", [])
  else
    match rt.storeAdd (formData rt req) with
    | .ok id =>
      (⟨200, .obj [("success", .bool true), ("id", .str id),
        ("message", .str "Form submitted successfully")]⟩, [.storeAdd (formData rt req)])
    | .error m => (errorResponse 500 m, [.storeAdd (formData rt req)])

/-- The handler of `POST /submit-form`. -/
def submitForm (rt : Runtime) (env : Env) (st : AppState) (req : FormRequest) : HandlerResult :=
  let init := ensureFirebase rt env st
  if init.ok then
    let r := submitFormBody rt req
    ⟨r.1, init.state, init.calls ++ r.2⟩
  else ⟨errorResponse 500 "Firebase not initialized", init.state, init.calls⟩

/-! ## `GET /form-submissions` -/

/-- The query parameters of the listing handler, as sent (absent is `none`). -/
structure ListRequest where
  page : Option String
  limit : Option String

/-- The parsed `page`. -/
def ListRequest.pageNumber (req : ListRequest) : Int :=
  orDefault (parseIntArg req.page) 1

/-- The parsed `limit`. -/
def ListRequest.limitNumber (req : ListRequest) : Int :=
  orDefault (parseIntArg req.limit) 10

/-- The record pushed for a document: `id` first, then the document data spread over it. -/
def submissionRecord (doc : String × JsObj) : JsVal :=
  .obj (spreadInto [("id", .str doc.1)] doc.2)

/-- The `try` block of the listing handler, with its `catch`. -/
def formSubmissionsBody (rt : Runtime) (req : ListRequest) : Response × List Call :=
  let page := req.pageNumber
  let limit := req.limitNumber
  let offset := (page - 1) * limit
  match rt.storeCount with
  | .error m => (errorResponse 500 m, [.storeCount])
  | .ok totalCount =>
    match rt.storeQuery offset limit with
    | .error m => (errorResponse 500 m, [.storeCount, .storeQuery offset limit])
    | .ok docs =>
      (⟨200, .obj [("success", .bool true),
        ("submissions", .arr (docs.map submissionRecord)),
        ("pagination", .obj [("totalCount", .num totalCount), ("currentPage", .num page),
          ("totalPages", mathCeilDiv totalCount limit), ("limit", .num limit)])]⟩,
        [.storeCount, .storeQuery offset limit])

/-- The handler of `GET /form-submissions`. -/
def formSubmissions (rt : Runtime) (env : Env) (st : AppState) (req : ListRequest) :
    HandlerResult :=
  let init := ensureFirebase rt env st
  if init.ok then
    let r := formSubmissionsBody rt req
    ⟨r.1, init.state, init.calls ++ r.2⟩
  else ⟨errorResponse 500 "Firebase not initialized", init.state, init.calls⟩

/-! ## `POST /api/chatbot` -/

/-- The values `r.text` of the fragments, as `responses.map(r => r.text)` reads them. -/
def fragmentTexts : List JsVal → Except String (List JsVal)
  | [] => .ok []
  | r :: rest =>
    match r.getProp "text" with
    | .error m => .error m
    | .ok t =>
      match fragmentTexts rest with
      | .error m => .error m
      | .ok ts => .ok (t :: ts)

/-- The expression `responses.map(r => r.text).join(" ")`; it throws unless `responses` is an
array of values that have properties. -/
def responseText (responses : JsVal) : Except String String :=
  match responses with
  | .arr xs =>
    match fragmentTexts xs with
    | .error m => .error m
    | .ok ts => .ok (JsVal.joinElems " " ts)
  | .undefined => .error "Cannot read properties of undefined (reading map)"
  | .null => .error "Cannot read properties of null (reading map)"
  | _ => .error "responses.map is not a function"

/-- The body of the text-to-speech `try` block: build the text, map the language, call the
synthesis client. -/
def trySynthesize (rt : Runtime) (responses language : JsVal) :
    Except String String × List Call :=
  match responseText responses with
  | .error m => (.error m, [])
  | .ok text =>
    match callGetLanguageCode language with
    | .error m => (.error m, [])
    | .ok code => (rt.synthesize text code, [.synthesize text code])

/-- The variable `audioResponse` after the text-to-speech block: the audio on success, still
`null` when the block threw (the `catch` only logs). -/
def audioResponse (r : Except String String) : JsVal :=
  match r with
  | .ok audio => .str audio
  | .error _ => .null

/-- The destructuring default `language = "en"`, applied when the property is `undefined`. -/
def languageOf (body : JsObj) : JsVal :=
  match getField body "language" with
  | .undefined => .str "en"
  | v => v

/-- The handler of `POST /api/chatbot`. -/
def chatbot (rt : Runtime) (body : JsObj) : Response × List Call :=
  let message := getField body "message"
  let language := languageOf body
  let sender := getField body "sender"
  if !message.truthy then (errorResponse 400 "Message is required", [])
  else
    let senderArg := if sender.truthy then sender else .str "default"
    match rt.rasaPost senderArg message with
    | .error m => (errorResponse 500 m, [.rasaPost senderArg message])
    | .ok responses =>
      if (getField body "includeAudio").truthy && rt.ttsClient then
        let tts := trySynthesize rt responses language
        (⟨200, .obj [("success", .bool true), ("responses", responses),
          ("audio", audioResponse tts.1)]⟩, .rasaPost senderArg message :: tts.2)
      else
        (⟨200, .obj [("success", .bool true), ("responses", responses), ("audio", .null)]⟩,
          [.rasaPost senderArg message])

/-! ## `POST /api/voice-chat` -/

/-- The parts of the request the voice handler reads. -/
structure VoiceRequest where
  /-- The text fields of the multipart body. -/
  body : JsObj
  /-- The path `req.file.path` of the uploaded temporary file, if a file was uploaded. -/
  file : Option String

/-- A step of the voice handler: its result or exception, whether the temporary file exists
afterwards, and the calls made. -/
structure Step (α : Type) where
  result : Except String α
  tmpExists : Bool
  calls : List Call

/-- The call `fs.unlinkSync(path)` on the temporary file: it removes an existing file and throws
when there is none. -/
def unlinkSync (path : String) (tmpExists : Bool) : Step Unit :=
  if tmpExists then ⟨.ok (), false, [.unlink path true]⟩
  else ⟨.error ("ENOENT: no such file or directory, unlink " ++ path), false,
    [.unlink path false]⟩

/-- The expression `result.alternatives[0].transcript` for every result; it throws on a result
without alternatives. -/
def firstTranscripts : List (List String) → Except String (List String)
  | [] => .ok []
  | alternatives :: rest =>
    match alternatives with
    | [] => .error "Cannot read properties of undefined (reading transcript)"
    | a :: _ =>
      match firstTranscripts rest with
      | .error m => .error m
      | .ok ts => .ok (a :: ts)

/-- The speech-to-text `try` block up to the assignment of `text`: read the file, map the
language, call the recognition client, join the transcripts with newlines. -/
def transcribe (rt : Runtime) (path : String) (language : JsVal) (tmpExists : Bool) :
    Except String String × List Call :=
  if tmpExists then
    match rt.readFile path with
    | .error m => (.error m, [])
    | .ok content =>
      match callGetLanguageCode language with
      | .error m => (.error m, [])
      | .ok code =>
        match rt.recognize content code with
        | .error m => (.error m, [.recognize content code])
        | .ok results =>
          match firstTranscripts results with
          | .error m => (.error m, [.recognize content code])
          | .ok ts => (.ok ("\n".intercalate ts), [.recognize content code])
  else (.error ("ENOENT: no such file or directory, open " ++ path), [])

/-- The part of the voice handler after transcription: the webhook call with the fixed sender
`voice-user`, the speech synthesis, the 200 response. -/
def voiceReply (rt : Runtime) (text : String) (language : JsVal) (tmpExists : Bool)
    (calls : List Call) : Step Response :=
  match rt.rasaPost (.str "voice-user") (.str text) with
  | .error m => ⟨.error m, tmpExists, calls ++ [.rasaPost (.str "voice-user") (.str text)]⟩
  | .ok responses =>
    if rt.ttsClient then
      let tts := trySynthesize rt responses language
      ⟨.ok ⟨200, .obj [("success", .bool true), ("transcribedText", .str text),
          ("responses", responses), ("audio", audioResponse tts.1)]⟩,
        tmpExists, calls ++ .rasaPost (.str "voice-user") (.str text) :: tts.2⟩
    else
      ⟨.ok ⟨200, .obj [("success", .bool true), ("transcribedText", .str text),
          ("responses", responses), ("audio", .null)]⟩,
        tmpExists, calls ++ [.rasaPost (.str "voice-user") (.str text)]⟩

/-- The outer `try` block of the voice handler once a file is known to be present: a response
it returns, or the exception that reaches the outer `catch`. -/
def voiceTry (rt : Runtime) (path : String) (language : JsVal) (tmpExists : Bool) :
    Step Response :=
  if rt.speechClient then
    let t := transcribe rt path language tmpExists
    match t.1 with
    | .ok text =>
      -- last statement of the inner `try`: clean up the uploaded file
      let u := unlinkSync path tmpExists
      match u.result with
      | .ok () => voiceReply rt text language u.tmpExists (t.2 ++ u.calls)
      | .error _ =>
        -- inner `catch`, entered from the failed deletion
        let u2 := unlinkSync path u.tmpExists
        match u2.result with
        | .ok () =>
          ⟨.ok (errorResponse 500 "Speech-to-text conversion failed"), u2.tmpExists,
            t.2 ++ u.calls ++ u2.calls⟩
        | .error m => ⟨.error m, u2.tmpExists, t.2 ++ u.calls ++ u2.calls⟩
    | .error _ =>
      -- inner `catch`
      let u := unlinkSync path tmpExists
      match u.result with
      | .ok () =>
        ⟨.ok (errorResponse 500 "Speech-to-text conversion failed"), u.tmpExists,
          t.2 ++ u.calls⟩
      | .error m => ⟨.error m, u.tmpExists, t.2 ++ u.calls⟩
  else
    let u := unlinkSync path tmpExists
    match u.result with
    | .ok () =>
      ⟨.ok (errorResponse 500 "Speech-to-text service not available"), u.tmpExists, u.calls⟩
    | .error m => ⟨.error m, u.tmpExists, u.calls⟩

/-- What the voice handler leaves behind: the response (`none` when an exception escapes the
outer `catch`), whether the temporary file still exists, and the calls made. -/
structure VoiceResult where
  response : Option Response
  tmpExists : Bool
  calls : List Call

/-- The handler of `POST /api/voice-chat`; `tmpExists` tells whether the uploaded temporary
file is on disk when the handler starts. -/
def voiceChat (rt : Runtime) (req : VoiceRequest) (tmpExists : Bool) : VoiceResult :=
  let language := languageOf req.body
  match req.file with
  | none => ⟨some (errorResponse 400 "Audio file is required"), tmpExists, []⟩
  | some path =>
    let tried := voiceTry rt path language tmpExists
    match tried.result with
    | .ok r => ⟨some r, tried.tmpExists, tried.calls⟩
    | .error m =>
      -- outer `catch`: delete the file if it is still there, then answer 500
      if tried.tmpExists then
        let u := unlinkSync path tried.tmpExists
        match u.result with
        | .ok () => ⟨some (errorResponse 500 m), u.tmpExists, tried.calls ++ u.calls⟩
        | .error _ => ⟨none, u.tmpExists, tried.calls ++ u.calls⟩
      else ⟨some (errorResponse 500 m), tried.tmpExists, tried.calls⟩

/-! ## `GET /health` -/

/-- The constant `RASA_URL`: the environment value or the local default. -/
def rasaUrl (env : Env) : String :=
  match envValue env.rasaUrl with
  | some url => url
  | none => "http://localhost:5005"

/-- The handler of `GET /health`. -/
def health (env : Env) (st : AppState) : Response :=
  ⟨200, .obj [("status", .str "OK"),
    ("firebase", .str (if st.firebaseInitialized then "Initialized" else "Not initialized")),
    ("rasa", .str (if rasaUrl env = "" then "Not configured" else "Configured"))]⟩

/-! ## Concrete configurations used in the examples -/

/-- A service account object with all six required fields. -/
def sampleServiceAccount : JsVal :=
  .obj [("type", .str "service_account"), ("project_id", .str "demo"),
    ("private_key_id", .str "k1"), ("private_key", .str "not a PEM block"),
    ("client_email", .str "svc@demo.iam.gserviceaccount.com"), ("client_id", .str "42")]

/-- Three stored documents. -/
def sampleDocs : List (String × JsObj) :=
  [("d1", [("username", .str "a")]), ("d2", [("username", .str "b")]),
    ("d3", [("username", .str "c")])]

/-- A runtime in which every collaborator answers successfully; the store holds 25 documents
and returns at most `limit` of them. -/
def sampleRuntime : Runtime where
  pathJoin := fun file => "/srv/backend/" ++ file
  existsSync := fun _ => true
  requireModule := fun _ => .ok sampleServiceAccount
  jsonParse := fun _ => .ok sampleServiceAccount
  adminInit := fun _ => .ok ()
  serverTimestamp := .str "FieldValue.serverTimestamp"
  storeAdd := fun _ => .ok "doc-1"
  storeCount := .ok 25
  storeQuery := fun _ limit => .ok (sampleDocs.take limit.toNat)
  rasaPost := fun _ _ => .ok (.arr [.obj [("text", .str "hello")]])
  speechClient := true
  ttsClient := true
  readFile := fun _ => .ok "UklGRg=="
  recognize := fun _ _ => .ok [["hi"]]
  synthesize := fun _ _ => .ok "SUQz"

/-- The runtime of `sampleRuntime`, except that the admin SDK rejects the credential. -/
def rejectingRuntime : Runtime :=
  { sampleRuntime with adminInit := fun _ => .error "Failed to parse private key" }

/-- An environment without any variable set. -/
def emptyEnv : Env :=
  ⟨none, none, none⟩

/-- An environment that supplies the service account inline. -/
def inlineEnv : Env :=
  ⟨none, some "service account JSON text", none⟩

/-! ## Lemmas on the pattern matcher -/

theorem lookup_setProp (o : JsObj) (key : String) (v : JsVal) (k : String) :
    (setProp o key v).lookup k = if k = key then some v else o.lookup k := by
  induction o with
  | nil =>
    by_cases h : k = key
    · simp [setProp, List.lookup, h]
    · have : (k == key) = false := by simpa using h
      simp [setProp, List.lookup, h, this]
  | cons kv rest ih =>
    obtain ⟨k1, w⟩ := kv
    by_cases h1 : k1 = key
    · subst h1
      by_cases h : k = k1
      · subst h
        simp [setProp, List.lookup]
      · have : (k == k1) = false := by simpa using h
        simp [setProp, List.lookup, h, this]
    · by_cases hk : k = k1
      · subst hk
        simp [setProp, List.lookup, h1]
      · have : (k == k1) = false := by simpa using hk
        simp [setProp, List.lookup, h1, this, ih]

theorem keysOf_setProp (o : JsObj) (key : String) (v : JsVal) (k : String) :
    k ∈ keysOf (setProp o key v) ↔ k ∈ keysOf o ∨ k = key := by
  induction o with
  | nil => simp [setProp, keysOf]
  | cons kv rest ih =>
    obtain ⟨k1, w⟩ := kv
    unfold keysOf at ih ⊢
    by_cases h1 : k1 = key
    · subst h1
      simp [setProp]
      tauto
    · simp only [setProp, h1, if_false, List.map_cons, List.mem_cons, ih]
      tauto

theorem keysOf_spreadInto (source target : JsObj) (k : String) :
    k ∈ keysOf (spreadInto target source) ↔ k ∈ keysOf target ∨ k ∈ keysOf source := by
  induction source generalizing target with
  | nil => simp [spreadInto, keysOf]
  | cons kv rest ih =>
    have h := ih (setProp target kv.1 kv.2)
    unfold spreadInto at h ⊢
    rw [List.foldl_cons, h, keysOf_setProp]
    simp [keysOf]
    tauto

theorem lookup_eq_none_of_not_mem_keys (o : JsObj) (k : String) (h : k ∉ keysOf o) :
    o.lookup k = none := by
  induction o with
  | nil => rfl
  | cons kv rest ih =>
    obtain ⟨k1, w⟩ := kv
    simp only [keysOf, List.map_cons, List.mem_cons, not_or] at h
    have : (k == k1) = false := by simpa using h.1
    simp only [List.lookup, this]
    exact ih h.2

theorem lookup_spreadInto (source target : JsObj) (k : String) (h : (keysOf source).Nodup) :
    (spreadInto target source).lookup k =
      match source.lookup k with
      | some v => some v
      | none => target.lookup k := by
  induction source generalizing target with
  | nil => simp [spreadInto]
  | cons kv rest ih =>
    obtain ⟨k1, w⟩ := kv
    simp only [keysOf, List.map_cons, List.nodup_cons] at h
    have h2 := ih (setProp target k1 w) h.2
    unfold spreadInto at h2 ⊢
    rw [List.foldl_cons, h2, lookup_setProp]
    by_cases hk : k = k1
    · subst hk
      have hn : rest.lookup k = none := lookup_eq_none_of_not_mem_keys rest k h.1
      simp [hn, List.lookup]
    · have : (k == k1) = false := by simpa using hk
      simp [hk, List.lookup, this]

/-! ## Lemmas on initialisation -/

theorem ensureFirebase_eq (rt : Runtime) (env : Env) (st : AppState) :
    ensureFirebase rt env st = initializeFirebase rt env st := by
  unfold ensureFirebase initializeFirebase
  split <;> rfl

theorem loadServiceAccount_no_write (rt : Runtime) (env : Env) :
    (loadServiceAccount rt env).2.any Call.isStoreWrite = false := by
  unfold loadServiceAccount
  split
  · dsimp only
    split <;> simp [Call.isStoreWrite]
  · split
    · split <;> simp [Call.isStoreWrite]
    · simp

theorem tryInitialize_no_write (rt : Runtime) (env : Env) :
    (tryInitialize rt env).2.any Call.isStoreWrite = false := by
  have h := loadServiceAccount_no_write rt env
  unfold tryInitialize
  dsimp only
  split
  · exact h
  · split
    · exact h
    · simp [List.any_append, h, Call.isStoreWrite]

theorem initializeFirebase_no_write (rt : Runtime) (env : Env) (st : AppState) :
    (initializeFirebase rt env st).calls.any Call.isStoreWrite = false := by
  have h := tryInitialize_no_write rt env
  unfold initializeFirebase
  split
  · simp
  · dsimp only
    split
    · exact h
    · simp [List.any_append, h, Call.isStoreWrite]

/-! ## The form submission handler -/

/-- Claim C1, as amended. A request to `/submit-form` whose body lacks, or has a falsy value
for, at least one of `username`, `email`, `password` never causes a document-store write; it is
answered with status 400 when the store is connected (the flag is set or `initializeFirebase`
succeeds on demand) and with status 500 `Firebase not initialized` otherwise. -/
theorem submitForm_missing_field (rt : Runtime) (env : Env) (st : AppState) (req : FormRequest)
    (hmissing : ∃ k ∈ ["username", "email", "password"], (getField req.body k).truthy = false) :
    (submitForm rt env st req).calls.any Call.isStoreWrite = false ∧
    ((initializeFirebase rt env st).ok = true →
      (submitForm rt env st req).response =
        errorResponse 400 "Missing required fields: username, email, password") ∧
    ((initializeFirebase rt env st).ok = false →
      (submitForm rt env st req).response = errorResponse 500 "Firebase not initialized") := by
  have hcond : (!(getField req.body "username").truthy || !(getField req.body "email").truthy ||
      !(getField req.body "password").truthy) = true := by
    obtain ⟨k, hk, hf⟩ := hmissing
    simp only [List.mem_cons, List.mem_singleton, List.not_mem_nil, or_false] at hk
    rcases hk with rfl | rfl | rfl <;> simp [hf]
  have hbody : submitFormBody rt req =
      (errorResponse 400 "Missing required fields: username, email, password", []) := by
    unfold submitFormBody
    simp only [hcond, if_true]
  have hw := initializeFirebase_no_write rt env st
  unfold submitForm
  rw [ensureFirebase_eq, hbody]
  dsimp only
  refine ⟨?_, ?_, ?_⟩
  · split <;> simp [hw]
  · intro h
    simp [h]
  · intro h
    simp [h]

/-- Witness for claim C1: an empty body on an initialised service. -/
theorem submitForm_missing_field_witness :
    (submitForm sampleRuntime emptyEnv ⟨true⟩ ⟨[], .undefined, .undefined⟩).response =
      errorResponse 400 "Missing required fields: username, email, password" :=
  (submitForm_missing_field sampleRuntime emptyEnv ⟨true⟩ ⟨[], .undefined, .undefined⟩
    ⟨"username", by simp, by decide⟩).2.1 (by decide)

/-- Counterexample to claim C1 as stated: with no credentials configured and the flag unset,
a request with an empty body is answered with status 500, not 400. -/
theorem submitForm_missing_field_not_always_400 :
    (getField ([] : JsObj) "username").truthy = false ∧
    (submitForm sampleRuntime emptyEnv ⟨false⟩ ⟨[], .undefined, .undefined⟩).response.status
      = 500 := by
  decide

theorem submitForm_connected (rt : Runtime) (env : Env) (st : AppState) (req : FormRequest)
    (hconn : (initializeFirebase rt env st).ok = true) :
    (submitForm rt env st req).response = (submitFormBody rt req).1 ∧
    (submitForm rt env st req).calls =
      (initializeFirebase rt env st).calls ++ (submitFormBody rt req).2 := by
  unfold submitForm
  rw [ensureFirebase_eq]
  simp [hconn]

theorem submitFormBody_valid (rt : Runtime) (req : FormRequest)
    (hu : (getField req.body "username").truthy = true)
    (he : (getField req.body "email").truthy = true)
    (hp : (getField req.body "password").truthy = true) :
    submitFormBody rt req =
      if emailRegexTest (getField req.body "email") then
        match rt.storeAdd (formData rt req) with
        | .ok id =>
          (⟨200, .obj [("success", .bool true), ("id", .str id),
            ("message", .str "Form submitted successfully")]⟩, [.storeAdd (formData rt req)])
        | .error m => (errorResponse 500 m, [.storeAdd (formData rt req)])
      else (errorResponse 400 "Invalid email format", []) := by
  unfold submitFormBody
  simp only [hu, he, hp, Bool.not_true, Bool.or_self, Bool.false_eq_true, if_false]
  by_cases h : emailRegexTest (getField req.body "email") = true
  · simp [h]
  · simp [h]

/-- Claim C9, as amended. For a valid `/submit-form` payload (distinct keys, truthy `username`,
`email`, `password`, an email accepted by the pattern, store connected) the handler writes
exactly one document, `formData`; its field set is the field set of the body together with
`submittedAt`, `ipAddress` and `userAgent`; every client field other than these three is stored
with the value the client sent, and the three carry the server values. -/
theorem submitForm_stored_document (rt : Runtime) (env : Env) (st : AppState)
    (req : FormRequest)
    (hconn : (initializeFirebase rt env st).ok = true)
    (hkeys : (keysOf req.body).Nodup)
    (hu : (getField req.body "username").truthy = true)
    (he : (getField req.body "email").truthy = true)
    (hp : (getField req.body "password").truthy = true)
    (hemail : emailRegexTest (getField req.body "email") = true) :
    (submitForm rt env st req).calls =
      (initializeFirebase rt env st).calls ++ [.storeAdd (formData rt req)] ∧
    (∀ k, k ∈ keysOf (formData rt req) ↔
      k ∈ keysOf req.body ∨ k = "submittedAt" ∨ k = "ipAddress" ∨ k = "userAgent") ∧
    (∀ k, k ≠ "submittedAt" → k ≠ "ipAddress" → k ≠ "userAgent" →
      (formData rt req).lookup k = req.body.lookup k) ∧
    (formData rt req).lookup "submittedAt" = some rt.serverTimestamp ∧
    (formData rt req).lookup "ipAddress" = some req.ip ∧
    (formData rt req).lookup "userAgent" = some req.userAgent := by
  obtain ⟨-, hc⟩ := submitForm_connected rt env st req hconn
  have hb := submitFormBody_valid rt req hu he hp
  have hspread : ∀ k, (spreadInto [] req.body).lookup k = req.body.lookup k := by
    intro k
    rw [lookup_spreadInto _ _ _ hkeys]
    cases req.body.lookup k <;> simp [List.lookup]
  refine ⟨?_, ?_, ?_, ?_, ?_, ?_⟩
  · rw [hc, hb]
    simp only [hemail, if_true]
    cases rt.storeAdd (formData rt req) <;> simp
  · intro k
    unfold formData
    simp only [keysOf_setProp, keysOf_spreadInto]
    simp [keysOf]
    tauto
  · intro k h1 h2 h3
    unfold formData
    simp only [lookup_setProp, h1, h2, h3, if_false, hspread]
  · unfold formData
    simp [lookup_setProp]
  · unfold formData
    simp [lookup_setProp]
  · unfold formData
    simp [lookup_setProp]

/-- Witness for claim C9: the stored document for the payload `a`, `a@b.com`, `p` has the
server timestamp under `submittedAt`. -/
theorem submitForm_stored_document_witness :
    (formData sampleRuntime
      ⟨[("username", .str "a"), ("email", .str "a@b.com"), ("password", .str "p")],
        .str "10.0.0.1", .str "curl"⟩).lookup "submittedAt"
      = some sampleRuntime.serverTimestamp :=
  (submitForm_stored_document sampleRuntime emptyEnv ⟨true⟩
    ⟨[("username", .str "a"), ("email", .str "a@b.com"), ("password", .str "p")],
      .str "10.0.0.1", .str "curl"⟩
    (by decide) (by decide) (by decide) (by decide) (by decide) (by decide)).2.2.2.1

/-- Counterexample to claim C9 as stated: the client supplies `ipAddress`, and the stored
document carries the server value of `req.ip` instead of the client value. -/
theorem submitForm_client_ipAddress_overwritten :
    getField [("username", .str "a"), ("email", .str "a@b.com"), ("password", .str "p"),
      ("ipAddress", .str "6.6.6.6")] "ipAddress" = .str "6.6.6.6" ∧
    getField (formData sampleRuntime
      ⟨[("username", .str "a"), ("email", .str "a@b.com"), ("password", .str "p"),
        ("ipAddress", .str "6.6.6.6")], .str "10.0.0.1", .str "curl"⟩) "ipAddress"
      = .str "10.0.0.1" ∧
    (submitForm sampleRuntime emptyEnv ⟨true⟩
      ⟨[("username", .str "a"), ("email", .str "a@b.com"), ("password", .str "p"),
        ("ipAddress", .str "6.6.6.6")], .str "10.0.0.1", .str "curl"⟩).calls.any
      Call.isStoreWrite = true := by
  refine ⟨rfl, rfl, by decide⟩

/-! ## The language mapper -/

/-- Claim C3. For every string, `getLanguageCode` returns `ta-IN` when the lower-cased input is
`tamil` or `ta`, `hi-IN` when it is `hindi` or `hi`, and the default `en-US` otherwise; inputs
with the same lower-casing get the same code, and `TA`, `hindi`, `xyz`, `tanglish`, `en` map to
`ta-IN`, `hi-IN`, `en-US`, `en-US`, `en-US`. -/
theorem getLanguageCode_cases (language : String) :
    (getLanguageCode language =
      if toLowerCase language = "tamil" ∨ toLowerCase language = "ta" then "ta-IN"
      else if toLowerCase language = "hindi" ∨ toLowerCase language = "hi" then "hi-IN"
      else "en-US") ∧
    (∀ other, toLowerCase other = toLowerCase language →
      getLanguageCode other = getLanguageCode language) ∧
    getLanguageCode "TA" = "ta-IN" ∧ getLanguageCode "hindi" = "hi-IN" ∧
    getLanguageCode "xyz" = "en-US" ∧ getLanguageCode "tanglish" = "en-US" ∧
    getLanguageCode "en" = "en-US" := by
  refine ⟨?_, ?_, by decide, by decide, by decide, by decide, by decide⟩
  · unfold getLanguageCode
    split <;> simp_all
  · intro other h
    unfold getLanguageCode
    rw [h]

/-- Witness for claim C3: `TaMiL` and `tamil` have the same lower-casing and the same code. -/
theorem getLanguageCode_cases_witness :
    getLanguageCode "TaMiL" = getLanguageCode "tamil" :=
  (getLanguageCode_cases "tamil").2.1 "TaMiL" (by decide)

/-! ## The listing handler -/

theorem orDefault_ne_zero (x : Option Int) (d : Int) (hd : d ≠ 0) : orDefault x d ≠ 0 := by
  unfold orDefault
  split
  · split
    · exact hd
    · assumption
  · exact hd

theorem formSubmissions_connected (rt : Runtime) (env : Env) (st : AppState) (req : ListRequest)
    (hconn : (initializeFirebase rt env st).ok = true) :
    (formSubmissions rt env st req).response = (formSubmissionsBody rt req).1 ∧
    (formSubmissions rt env st req).calls =
      (initializeFirebase rt env st).calls ++ (formSubmissionsBody rt req).2 := by
  unfold formSubmissions
  rw [ensureFirebase_eq]
  simp [hconn]

theorem formSubmissionsBody_ok (rt : Runtime) (req : ListRequest) (totalCount : Int)
    (docs : List (String × JsObj))
    (hcount : rt.storeCount = .ok totalCount)
    (hquery : rt.storeQuery ((req.pageNumber - 1) * req.limitNumber) req.limitNumber
      = .ok docs) :
    formSubmissionsBody rt req =
      (⟨200, .obj [("success", .bool true),
        ("submissions", .arr (docs.map submissionRecord)),
        ("pagination", .obj [("totalCount", .num totalCount),
          ("currentPage", .num req.pageNumber),
          ("totalPages", mathCeilDiv totalCount req.limitNumber),
          ("limit", .num req.limitNumber)])]⟩,
        [.storeCount,
          .storeQuery ((req.pageNumber - 1) * req.limitNumber) req.limitNumber]) := by
  unfold formSubmissionsBody
  simp only [hcount, hquery]

theorem mathCeilDiv_pos (a b : Int) (hb : 0 < b) :
    mathCeilDiv a b = .num ⌈(a : ℚ) / (b : ℚ)⌉ ∧
    (⌈(a : ℚ) / (b : ℚ)⌉ - 1) * b < a ∧ a ≤ ⌈(a : ℚ) / (b : ℚ)⌉ * b := by
  have hbq : (0 : ℚ) < (b : ℚ) := by exact_mod_cast hb
  refine ⟨?_, ?_, ?_⟩
  · unfold mathCeilDiv
    simp [hb.ne']
  · have h1 : ((⌈(a : ℚ) / (b : ℚ)⌉ : ℤ) : ℚ) < (a : ℚ) / (b : ℚ) + 1 := Int.ceil_lt_add_one _
    have h2 : (((⌈(a : ℚ) / (b : ℚ)⌉ : ℤ) : ℚ) - 1) * (b : ℚ) < (a : ℚ) := by
      have : ((⌈(a : ℚ) / (b : ℚ)⌉ : ℤ) : ℚ) - 1 < (a : ℚ) / (b : ℚ) := by linarith
      calc (((⌈(a : ℚ) / (b : ℚ)⌉ : ℤ) : ℚ) - 1) * (b : ℚ)
          < (a : ℚ) / (b : ℚ) * (b : ℚ) := mul_lt_mul_of_pos_right this hbq
        _ = (a : ℚ) := div_mul_cancel₀ _ hbq.ne'
    exact_mod_cast h2
  · have h1 : (a : ℚ) / (b : ℚ) ≤ ((⌈(a : ℚ) / (b : ℚ)⌉ : ℤ) : ℚ) := Int.le_ceil _
    have h2 : (a : ℚ) ≤ ((⌈(a : ℚ) / (b : ℚ)⌉ : ℤ) : ℚ) * (b : ℚ) := by
      calc (a : ℚ) = (a : ℚ) / (b : ℚ) * (b : ℚ) := (div_mul_cancel₀ _ hbq.ne').symm
        _ ≤ ((⌈(a : ℚ) / (b : ℚ)⌉ : ℤ) : ℚ) * (b : ℚ) :=
          mul_le_mul_of_nonneg_right h1 hbq.le
    exact_mod_cast h2

/-- Claim C10, as amended. A `limit` query parameter that parses to 0 is falsy and is replaced
by the default 10: the parsed limit is never 0, so no division by zero occurs; for `limit=0`
the store is asked for a window of 10, `pagination.limit` is 10 and `pagination.totalPages`
is the integer `ceil(totalCount / 10)`. -/
theorem formSubmissions_zero_limit (rt : Runtime) (env : Env) (st : AppState)
    (req : ListRequest) (totalCount : Int) (docs : List (String × JsObj))
    (hzero : parseIntArg req.limit = some 0)
    (hconn : (initializeFirebase rt env st).ok = true)
    (hcount : rt.storeCount = .ok totalCount)
    (hquery : rt.storeQuery ((req.pageNumber - 1) * 10) 10 = .ok docs) :
    (∀ r : ListRequest, r.limitNumber ≠ 0) ∧
    req.limitNumber = 10 ∧
    (formSubmissions rt env st req).response.status = 200 ∧
    (∃ pagination, (formSubmissions rt env st req).response.field "pagination"
        = .obj pagination ∧
      getField pagination "limit" = .num 10 ∧
      getField pagination "totalPages" = .num ⌈(totalCount : ℚ) / 10⌉) ∧
    (formSubmissions rt env st req).calls = (initializeFirebase rt env st).calls ++
      [.storeCount, .storeQuery ((req.pageNumber - 1) * 10) 10] := by
  have hl : req.limitNumber = 10 := by
    unfold ListRequest.limitNumber orDefault
    rw [hzero]
    simp
  obtain ⟨hr, hc⟩ := formSubmissions_connected rt env st req hconn
  have hb := formSubmissionsBody_ok rt req totalCount docs hcount (by rw [hl]; exact hquery)
  obtain ⟨hceil, -, -⟩ := mathCeilDiv_pos totalCount 10 (by norm_num)
  rw [hr, hc, hb, hl]
  refine ⟨?_, rfl, rfl, ?_, rfl⟩
  · intro r
    exact orDefault_ne_zero _ _ (by norm_num)
  · refine ⟨_, rfl, rfl, ?_⟩
    have : getField [("totalCount", JsVal.num totalCount),
        ("currentPage", JsVal.num req.pageNumber),
        ("totalPages", mathCeilDiv totalCount 10), ("limit", JsVal.num 10)] "totalPages"
        = mathCeilDiv totalCount 10 := rfl
    rw [this, hceil]
    norm_num

/-- Witness for claim C10: the query string `limit=0` on the sample store. -/
theorem formSubmissions_zero_limit_witness :
    (ListRequest.mk none (some "0")).limitNumber = 10 :=
  (formSubmissions_zero_limit sampleRuntime emptyEnv ⟨true⟩ ⟨none, some "0"⟩ 25
    (sampleDocs.take 10) (by decide) (by decide) rfl rfl).2.1

/-- Counterexample to claim C10 as stated: for the query string `limit=0` over 25 stored
documents the response carries `pagination.limit = 10`, not 0, and the finite
`pagination.totalPages = 3`. -/
theorem formSubmissions_limit_zero_replaced :
    parseInt "0" = some 0 ∧
    ∃ pagination, (formSubmissions sampleRuntime emptyEnv ⟨true⟩
        ⟨none, some "0"⟩).response.field "pagination" = .obj pagination ∧
      getField pagination "limit" = .num 10 ∧
      getField pagination "totalPages" = .num 3 := by
  refine ⟨by decide, ?_⟩
  obtain ⟨hr, -⟩ := formSubmissions_connected sampleRuntime emptyEnv ⟨true⟩
    ⟨none, some "0"⟩ (by decide)
  have hl : (ListRequest.mk none (some "0")).limitNumber = 10 := by decide
  have hb := formSubmissionsBody_ok sampleRuntime ⟨none, some "0"⟩ 25 (sampleDocs.take 10)
    rfl rfl
  obtain ⟨hceil, -, -⟩ := mathCeilDiv_pos 25 10 (by norm_num)
  have h3 : ⌈((25 : Int) : ℚ) / ((10 : Int) : ℚ)⌉ = 3 := by
    rw [Int.ceil_eq_iff]
    constructor <;> norm_num
  rw [hr, hb, hl, hceil, h3]
  exact ⟨_, rfl, rfl, rfl⟩

/-! ## The chatbot handler -/

theorem errorResponse_hasEnvelope (status : Nat) (message : String) :
    (errorResponse status message).hasEnvelope = true := rfl

theorem submitFormBody_hasEnvelope (rt : Runtime) (req : FormRequest) :
    (submitFormBody rt req).1.hasEnvelope = true := by
  unfold submitFormBody
  dsimp only
  split
  · rfl
  · split
    · rfl
    · split <;> rfl

theorem formSubmissionsBody_hasEnvelope (rt : Runtime) (req : ListRequest) :
    (formSubmissionsBody rt req).1.hasEnvelope = true := by
  unfold formSubmissionsBody
  dsimp only
  split
  · rfl
  · split <;> rfl

theorem chatbot_hasEnvelope (rt : Runtime) (body : JsObj) :
    (chatbot rt body).1.hasEnvelope = true := by
  unfold chatbot
  dsimp only
  split
  · rfl
  · split
    · rfl
    · split <;> rfl

theorem voiceReply_hasEnvelope (rt : Runtime) (text : String) (language : JsVal)
    (tmpExists : Bool) (calls : List Call) (r : Response)
    (h : (voiceReply rt text language tmpExists calls).result = .ok r) :
    r.hasEnvelope = true := by
  unfold voiceReply at h
  split at h
  · simp at h
  · split at h
    · simp only [Except.ok.injEq] at h
      rw [← h]
      rfl
    · simp only [Except.ok.injEq] at h
      rw [← h]
      rfl

theorem voiceTry_hasEnvelope (rt : Runtime) (path : String) (language : JsVal)
    (tmpExists : Bool) (r : Response)
    (h : (voiceTry rt path language tmpExists).result = .ok r) :
    r.hasEnvelope = true := by
  unfold voiceTry at h
  cases tmpExists
  · simp only [unlinkSync, Bool.false_eq_true, if_false] at h
    split at h
    · split at h <;> simp at h
    · simp at h
  · simp only [unlinkSync, if_true] at h
    split at h
    · split at h
      · exact voiceReply_hasEnvelope _ _ _ _ _ _ h
      · simp only [Except.ok.injEq] at h
        rw [← h]
        rfl
    · simp only [Except.ok.injEq] at h
      rw [← h]
      rfl

theorem voiceChat_responds (rt : Runtime) (req : VoiceRequest) (tmpExists : Bool) :
    ∃ r, (voiceChat rt req tmpExists).response = some r ∧ r.hasEnvelope = true := by
  unfold voiceChat
  dsimp only
  split
  · exact ⟨_, rfl, rfl⟩
  · rename_i path _
    cases hres : (voiceTry rt path (languageOf req.body) tmpExists).result with
    | ok r => exact ⟨r, rfl, voiceTry_hasEnvelope _ _ _ _ _ hres⟩
    | error m =>
      dsimp only
      cases (voiceTry rt path (languageOf req.body) tmpExists).tmpExists
      · exact ⟨_, rfl, rfl⟩
      · exact ⟨_, rfl, rfl⟩

/-- Claim C6, as amended. Every response produced by the four handlers `/submit-form`,
`/form-submissions`, `/api/chatbot` and `/api/voice-chat`, on every path, is a JSON object
with a boolean `success` field and, when `success` is false, a string `error` field; the
voice handler always produces a response. The `/health` response is the object with the three
string fields `status`, `firebase` and `rasa` and has no `success` field. -/
theorem handler_responses_have_envelope (rt : Runtime) (env : Env) (st : AppState)
    (form : FormRequest) (listing : ListRequest) (chat : JsObj) (voice : VoiceRequest)
    (tmpExists : Bool) :
    (submitForm rt env st form).response.hasEnvelope = true ∧
    (formSubmissions rt env st listing).response.hasEnvelope = true ∧
    (chatbot rt chat).1.hasEnvelope = true ∧
    (∃ r, (voiceChat rt voice tmpExists).response = some r ∧ r.hasEnvelope = true) ∧
    (health env st).status = 200 ∧
    (health env st).field "success" = .undefined ∧
    (∃ firebase rasa, (health env st).body =
      .obj [("status", .str "OK"), ("firebase", .str firebase), ("rasa", .str rasa)]) := by
  refine ⟨?_, ?_, chatbot_hasEnvelope rt chat, voiceChat_responds rt voice tmpExists, rfl, rfl,
    ⟨_, _, rfl⟩⟩
  · unfold submitForm
    dsimp only
    split
    · exact submitFormBody_hasEnvelope rt form
    · rfl
  · unfold formSubmissions
    dsimp only
    split
    · exact formSubmissionsBody_hasEnvelope rt listing
    · rfl

/-- Counterexample to claim C6 as stated: the `/health` response has no `success` field. -/
theorem health_response_lacks_success :
    (health emptyEnv ⟨false⟩).hasEnvelope = false ∧
    (health emptyEnv ⟨false⟩).field "success" = .undefined := by
  exact ⟨by decide, rfl⟩

/-! ## Firebase initialisation -/

theorem checkRequiredFields_ok_iff (serviceAccount : JsVal) (fields : List String) :
    checkRequiredFields serviceAccount fields = .ok () ↔
      ∀ f ∈ fields, fieldPresent serviceAccount f = true := by
  induction fields with
  | nil => simp [checkRequiredFields]
  | cons f rest ih =>
    unfold checkRequiredFields
    cases hp : serviceAccount.getProp f with
    | error m => simp [fieldPresent, hp]
    | ok v =>
      cases hv : v.truthy
      · simp [fieldPresent, hp, hv]
      · simp [fieldPresent, hp, hv, ih]

theorem checkRequiredFields_first_missing (serviceAccount : JsVal)
    (before : List String) (field : String) (after : List String) (v : JsVal)
    (hbefore : ∀ g ∈ before, fieldPresent serviceAccount g = true)
    (hget : serviceAccount.getProp field = .ok v) (hfalsy : v.truthy = false) :
    checkRequiredFields serviceAccount (before ++ field :: after) =
      .error ("Service account missing required field: " ++ field) := by
  induction before with
  | nil =>
    simp [checkRequiredFields, hget, hfalsy]
  | cons g rest ih =>
    have hg := hbefore g (List.mem_cons_self _ _)
    have hrest := ih (fun x hx => hbefore x (List.mem_cons_of_mem _ hx))
    unfold fieldPresent at hg
    rw [List.cons_append]
    unfold checkRequiredFields
    cases hp : serviceAccount.getProp g with
    | error m => simp [hp] at hg
    | ok w =>
      simp only [hp] at hg
      simp [hg, hrest]

theorem tryInitialize_ok_iff (rt : Runtime) (env : Env) :
    (tryInitialize rt env).1 = .ok () ↔
      ∃ serviceAccount, (loadServiceAccount rt env).1 = .ok serviceAccount ∧
        (∀ f ∈ requiredFields, fieldPresent serviceAccount f = true) ∧
        rt.adminInit serviceAccount = .ok () := by
  unfold tryInitialize
  dsimp only
  cases hl : (loadServiceAccount rt env).1 with
  | error m => simp
  | ok serviceAccount =>
    dsimp only
    cases hc : checkRequiredFields serviceAccount requiredFields with
    | error m =>
      have hn : ¬ ∀ f ∈ requiredFields, fieldPresent serviceAccount f = true := by
        intro hall
        rw [(checkRequiredFields_ok_iff _ _).mpr hall] at hc
        cases hc
      constructor
      · intro h
        cases h
      · rintro ⟨sa, hsa, hall, -⟩
        cases hsa
        exact absurd hall hn
    | ok u =>
      have hall := (checkRequiredFields_ok_iff _ _).mp hc
      constructor
      · intro h
        exact ⟨serviceAccount, rfl, hall, h⟩
      · rintro ⟨sa, hsa, -, hadmin⟩
        cases hsa
        exact hadmin

/-- Claim C8, as amended. `initializeFirebase` is idempotent and retryable: with the flag set
it returns true without any call and leaves the state unchanged; with the flag unset it
returns true, and sets the flag, exactly when the selected credential source (the file named
by `FIREBASE_SERVICE_ACCOUNT_FILE` when that variable is set, otherwise the inline JSON) loads,
all six required fields are present and truthy, and the admin SDK calls do not throw; in every
other case it returns false and leaves the flag unset, so that a later call runs the
initialisation again; when a required field is missing the logged error names the first
missing field in the fixed order. -/
theorem initializeFirebase_idempotent_retryable (rt : Runtime) (env : Env) (st : AppState) :
    (st.firebaseInitialized = true →
      (initializeFirebase rt env st).ok = true ∧ (initializeFirebase rt env st).state = st ∧
      (initializeFirebase rt env st).calls = []) ∧
    (st.firebaseInitialized = false →
      ((initializeFirebase rt env st).ok = true ↔
        ∃ serviceAccount, (loadServiceAccount rt env).1 = .ok serviceAccount ∧
          (∀ f ∈ requiredFields, fieldPresent serviceAccount f = true) ∧
          rt.adminInit serviceAccount = .ok ()) ∧
      (initializeFirebase rt env st).state.firebaseInitialized
        = (initializeFirebase rt env st).ok ∧
      (∀ rt2 env2, (initializeFirebase rt env st).ok = false →
        initializeFirebase rt2 env2 (initializeFirebase rt env st).state
          = initializeFirebase rt2 env2 ⟨false⟩) ∧
      (∀ serviceAccount before field after v,
        (loadServiceAccount rt env).1 = .ok serviceAccount →
        requiredFields = before ++ field :: after →
        (∀ g ∈ before, fieldPresent serviceAccount g = true) →
        serviceAccount.getProp field = .ok v → v.truthy = false →
        (initializeFirebase rt env st).ok = false ∧
        (initializeFirebase rt env st).calls = (loadServiceAccount rt env).2 ++
          [.consoleError ("Service account missing required field: " ++ field)])) := by
  constructor
  · intro h
    unfold initializeFirebase
    simp [h]
  · intro h
    have hiff := tryInitialize_ok_iff rt env
    have hdef : initializeFirebase rt env st =
        match (tryInitialize rt env).1 with
        | .ok () => ⟨true, ⟨true⟩, (tryInitialize rt env).2⟩
        | .error m => ⟨false, ⟨false⟩, (tryInitialize rt env).2 ++ [.consoleError m]⟩ := by
      unfold initializeFirebase
      simp [h]
    refine ⟨?_, ?_, ?_, ?_⟩
    · rw [← hiff, hdef]
      cases (tryInitialize rt env).1 <;> simp
    · rw [hdef]
      cases (tryInitialize rt env).1 <;> rfl
    · intro rt2 env2 hfail
      rw [hdef] at hfail ⊢
      cases htry : (tryInitialize rt env).1 with
      | ok u => simp [htry] at hfail
      | error m => rfl
    · intro serviceAccount before field after v hload hsplit hbefore hget hfalsy
      have hcheck : checkRequiredFields serviceAccount requiredFields =
          .error ("Service account missing required field: " ++ field) := by
        rw [hsplit]
        exact checkRequiredFields_first_missing _ _ _ _ _ hbefore hget hfalsy
      have htry : tryInitialize rt env =
          (.error ("Service account missing required field: " ++ field),
            (loadServiceAccount rt env).2) := by
        unfold tryInitialize
        simp only [hload, hcheck]
      rw [hdef, htry]
      exact ⟨rfl, rfl⟩

/-- Witness for claim C8: with the inline credential and an accepting SDK the first call
succeeds. -/
theorem initializeFirebase_idempotent_retryable_witness :
    (initializeFirebase sampleRuntime inlineEnv ⟨false⟩).ok = true :=
  ((initializeFirebase_idempotent_retryable sampleRuntime inlineEnv ⟨false⟩).2 rfl).1.mpr
    ⟨sampleServiceAccount, rfl, by decide, rfl⟩

/-- Counterexample to claim C8 as stated: the inline credential parses and carries all six
required fields, yet `initializeFirebase` returns false and leaves the flag unset, because the
admin SDK call inside the `try` block throws. -/
theorem initializeFirebase_fails_when_sdk_rejects :
    (loadServiceAccount rejectingRuntime inlineEnv).1 = .ok sampleServiceAccount ∧
    (∀ f ∈ requiredFields, fieldPresent sampleServiceAccount f = true) ∧
    (initializeFirebase rejectingRuntime inlineEnv ⟨false⟩).ok = false ∧
    (initializeFirebase rejectingRuntime inlineEnv ⟨false⟩).state.firebaseInitialized
      = false := by
  exact ⟨rfl, by decide, by decide, by decide⟩
